import Mathlib

/-!
Verification of the invoice-detecting email receiver backend.

The development shallowly embeds the TypeScript sources:
* `src/services/InvoiceService.ts` (scoring engine, thresholds, weights),
* `src/services/CacheService.ts` (in-memory TTL cache and key builders),
* `src/services/EmailService.ts` (IMAP/POP3 fetch pipelines and the MIME
  normalizer `parseEmailMessage`),
* `src/config.ts` (default configuration values).

Conventions of the embedding:
* JavaScript numbers that carry scores are decimal literals with at most one
  fractional digit (0.1 … 0.8); they are represented exactly as integers in
  units of 1/10 ("tenths").  A weighted combination `score * weight`
  multiplies two tenths, so combined confidences and the thresholds they are
  compared against live in units of 1/100 ("hundredths").  All comparisons in
  the source are order comparisons of such constants, so this fixed-point
  representation is exact.
* JavaScript strings are Lean `String`s; `String.prototype.includes`,
  `toLowerCase` and `endsWith` are implemented structurally over `List Char`
  so that they are executable inside the kernel.
* `Date` values are epoch milliseconds, embedded as `Int`.
* Promise-based network calls (IMAP search/fetch, POP3 list/retr) are
  external collaborators; they enter the embedded pipeline functions as
  explicit arguments (a list of identifiers returned by the server and a
  retrieval oracle), exactly at the points the source awaits them.
* The shared mutable cache singleton is threaded as explicit state.
-/

namespace EmailReceiver

/-- Boolean prefix test on character lists (structural, kernel-executable). -/
def isPrefixChars : List Char → List Char → Bool
  | [], _ => true
  | _ :: _, [] => false
  | a :: as, b :: bs => a == b && isPrefixChars as bs

/-- Boolean substring test on character lists: does `needle` occur in the
list?  An empty needle occurs everywhere, as with JavaScript `includes`. -/
def containsChars (needle : List Char) : List Char → Bool
  | [] => needle.isEmpty
  | c :: t => isPrefixChars needle (c :: t) || containsChars needle t

/-- JavaScript `haystack.includes(needle)`. -/
def strIncludes (s sub : String) : Bool :=
  containsChars sub.data s.data

/-- JavaScript `s.toLowerCase()`; ASCII letters are lowered and all keywords
in this code base are ASCII or CJK (CJK characters are fixed points). -/
def lowerString (s : String) : String :=
  ⟨s.data.map Char.toLower⟩

/-- JavaScript `s.endsWith(suffix)`. -/
def endsWithChars (s suf : String) : Bool :=
  isPrefixChars suf.data.reverse s.data.reverse

/-- JavaScript `a || b` on strings: the empty string is falsy. -/
def jsStrOr (a b : String) : String :=
  if a.isEmpty then b else a

/-- JavaScript truthiness of an optional string: `undefined` and `""` are
falsy. -/
def jsTruthy : Option String → Bool
  | none => false
  | some s => !s.isEmpty

/-- Normal form of an optional string under JavaScript truthiness: the
falsy values `undefined` and `""` collapse to `none`. -/
def jsNorm : Option String → Option String
  | none => none
  | some s => if s.isEmpty then none else some s

/-! ## Data model (src/types/index.ts) -/

/-- EmailAttachment of `src/types/index.ts`.  The optional raw `content`
buffer is carried by no claim and is omitted. -/
structure EmailAttachment where
  filename : String
  contentType : String
  size : Nat
deriving DecidableEq

/-- EmailMessage of `src/types/index.ts`.  `date` and `createdAt` are epoch
milliseconds.  The source marks `attachments` optional; an absent array and
an empty array are treated identically by every consumer
(`!email.attachments || email.attachments.length === 0`), so it is embedded
as a plain list. -/
structure EmailMessage where
  id : String
  messageId : String
  «from» : String
  «to» : String
  subject : String
  title : String
  body : String
  content : String
  date : Int
  hasAttachments : Bool
  attachments : List EmailAttachment
  isInvoice : Option Bool := none
  createdAt : Int
deriving DecidableEq

/-- One language bucket of the keyword configuration. -/
structure LangKeywords where
  subjects : List String
  senders : List String
  amounts : List String
  companies : List String

/-- InvoiceKeywords of `src/types/index.ts`: two language buckets. -/
structure InvoiceKeywords where
  chinese : LangKeywords
  english : LangKeywords

/-- The five content regular expressions held in `InvoiceService.patterns`.
The source stores compiled `RegExp` values and the content analyzer only
ever calls `pattern.test(body)`, so the embedding represents each pattern by
the Boolean test it induces on the body text. -/
structure InvoicePatterns where
  invoiceNumber : String → Bool
  amount : String → Bool
  taxNumber : String → Bool
  date : String → Bool
  company : String → Bool

/-- InvoiceScoreWeights, in tenths (the source literal 0.5 is `5`). -/
structure InvoiceScoreWeights where
  subject : Int
  sender : Int
  content : Int
  attachment : Int
deriving DecidableEq

/-! ## Configuration defaults (src/config.ts) -/

/-- Default of `config.invoice.confidenceThreshold`
(`parseFloat(process.env['INVOICE_CONFIDENCE_THRESHOLD'] || '0.5')` with the
environment variable unset), in hundredths: 0.5 = 50/100. -/
def configConfidenceThreshold : Int := 50

/-- Weights of `config.invoice.scoreWeights` (0.3 / 0.2 / 0.3 / 0.2), in
tenths. -/
def configScoreWeights : InvoiceScoreWeights :=
  { subject := 3, sender := 2, content := 3, attachment := 2 }

/-- Value of `config.email.attachmentSizeLimit`: 10 MB. -/
def attachmentSizeLimit : Nat := 10 * 1024 * 1024

/-! ## InvoiceService constructor state (src/services/InvoiceService.ts) -/

/-- Weights set in the `InvoiceService` constructor
(`this.scoreWeights = { subject: 0.5, sender: 0.2, content: 0.1,
attachment: 0.2 }`), in tenths. -/
def scoreWeights : InvoiceScoreWeights :=
  { subject := 5, sender := 2, content := 1, attachment := 2 }

/-- Threshold set in the `InvoiceService` constructor
(`this.confidenceThreshold = 0.3`), in hundredths: 0.3 = 30/100. -/
def confidenceThreshold : Int := 30

/-- Keyword configuration returned by `getDefaultKeywords()` and installed
as `this.keywords` in the constructor. -/
def defaultKeywords : InvoiceKeywords :=
  { chinese :=
      { subjects := ["发票", "电子发票", "增值税发票"]
        senders := ["财务", "会计", "开票"]
        amounts := ["金额", "总计", "合计"]
        companies := ["有限公司", "股份有限公司", "集团"] }
    english :=
      { subjects := ["invoice", "bill", "receipt"]
        senders := ["finance", "accounting", "billing"]
        amounts := ["amount", "total", "sum"]
        companies := ["Ltd.", "Inc.", "Corp."] } }

/-! ## The four analyzers -/

/-- Built-in fallback list of `analyzeSubject` ("常见发票关键词"). -/
def commonInvoiceKeywords : List String :=
  ["发票", "电子发票", "增值税发票", "invoice", "bill", "receipt"]

/-- InvoiceService.analyzeSubject.  Chinese keyword hits add 0.5 (5 tenths),
English hits 0.4, and a single extra 0.6 increment fires if any common
keyword occurs (the source breaks out of that loop after the first hit);
the sum is clamped to 1.0 (10 tenths). -/
def analyzeSubject (kw : InvoiceKeywords) (subject : String) : Int :=
  if subject.isEmpty then 0
  else
    let subjectLower := lowerString subject
    let s1 := kw.chinese.subjects.foldl
      (fun sc k => if strIncludes subject k then sc + 5 else sc) 0
    let s2 := kw.english.subjects.foldl
      (fun sc k => if strIncludes subjectLower (lowerString k) then sc + 4 else sc) s1
    let s3 := if commonInvoiceKeywords.any
        (fun k => strIncludes subject k || strIncludes subjectLower (lowerString k))
      then s2 + 6 else s2
    min s3 10

/-- Fixed list of invoice-issuing domains/platforms in `analyzeSender`. -/
def invoiceDomains : List String :=
  ["tax.gov.cn", "chinatax.gov.cn", "taobao.com", "tmall.com",
   "jd.com", "invoice", "billing", "finance"]

/-- InvoiceService.analyzeSender.  Each sender-keyword hit (both language
buckets) adds 0.4; one extra 0.6 increment fires if any known domain occurs
(the source breaks after the first); clamped to 1.0. -/
def analyzeSender (kw : InvoiceKeywords) (sender : String) : Int :=
  if sender.isEmpty then 0
  else
    let senderLower := lowerString sender
    let allSenderKeywords := kw.chinese.senders ++ kw.english.senders
    let s1 := allSenderKeywords.foldl
      (fun sc k => if strIncludes senderLower (lowerString k) then sc + 4 else sc) 0
    let s2 := if invoiceDomains.any (fun d => strIncludes senderLower d)
      then s1 + 6 else s1
    min s2 10

/-- InvoiceService.analyzeContent.  The five patterns contribute fixed
increments (invoice number 0.4, amount 0.3, tax number 0.2, date 0.2,
company 0.1) and a single 0.1 increment fires if any configured amount
keyword occurs literally; clamped to 1.0. -/
def analyzeContent (kw : InvoiceKeywords) (pat : InvoicePatterns) (content : String) : Int :=
  if content.isEmpty then 0
  else
    let contentLower := lowerString content
    let s1 : Int := if pat.invoiceNumber content then 4 else 0
    let s2 := s1 + (if pat.amount content then 3 else 0)
    let s3 := s2 + (if pat.taxNumber content then 2 else 0)
    let s4 := s3 + (if pat.date content then 2 else 0)
    let s5 := s4 + (if pat.company content then 1 else 0)
    let allAmountKeywords := kw.chinese.amounts ++ kw.english.amounts
    let s6 := if allAmountKeywords.any
        (fun k => strIncludes content k || strIncludes contentLower (lowerString k))
      then s5 + 1 else s5
    min s6 10

/-- Invoice-related filename fragments checked by `analyzeAttachments`. -/
def invoiceFilenames : List String :=
  ["invoice", "bill", "receipt", "发票", "账单", "收据"]

/-- Per-attachment contribution inside the loop of `analyzeAttachments`:
PDF content type or filename adds 0.8, an invoice-related filename fragment
adds 0.6 (the inner loop breaks after the first hit), and a word-processor
or spreadsheet document adds 0.3. -/
def attachmentItemScore (a : EmailAttachment) : Int :=
  let filename := lowerString a.filename
  let contentType := lowerString a.contentType
  let p : Int := if strIncludes contentType "pdf" || endsWithChars filename ".pdf"
    then 8 else 0
  let q := if invoiceFilenames.any (fun k => strIncludes filename (lowerString k))
    then p + 6 else p
  if strIncludes contentType "word" || strIncludes contentType "excel" ||
     endsWithChars filename ".doc" || endsWithChars filename ".docx" ||
     endsWithChars filename ".xls" || endsWithChars filename ".xlsx"
  then q + 3 else q

/-- InvoiceService.analyzeAttachments: 0 without attachments, otherwise the
sum of the per-attachment contributions clamped to 1.0. -/
def analyzeAttachments (email : EmailMessage) : Int :=
  if !email.hasAttachments || email.attachments.isEmpty then 0
  else
    min (email.attachments.foldl (fun sc a => sc + attachmentItemScore a) 0) 10

/-- The weighted combination computed identically in `detectSingleInvoice`
and `analyzeEmail`:
`subject*Wsubj + sender*Wsend + content*Wcont + attachment*Wattach`.
Partial scores are tenths and weights are tenths, so the result is in
hundredths. -/
def combinedConfidence (kw : InvoiceKeywords) (pat : InvoicePatterns)
    (w : InvoiceScoreWeights) (email : EmailMessage) : Int :=
  analyzeSubject kw email.subject * w.subject +
  analyzeSender kw email.«from» * w.sender +
  analyzeContent kw pat email.body * w.content +
  analyzeAttachments email * w.attachment

/-! ## Batch path: analyzeEmail / detectInvoices -/

/-- Result of the private batch helper `analyzeEmail` (the extracted
`invoiceInfo` carries no score and is not embedded). -/
structure AnalyzeEmailResult where
  isInvoice : Bool
  confidenceScore : Int
deriving DecidableEq

/-- InvoiceService.analyzeEmail: combines the four analyzer scores with
`this.scoreWeights` and classifies against `config.invoice.confidenceThreshold`
(`confidenceScore >= config.invoice.confidenceThreshold`). -/
def analyzeEmail (kw : InvoiceKeywords) (pat : InvoicePatterns)
    (email : EmailMessage) : AnalyzeEmailResult :=
  let confidenceScore := combinedConfidence kw pat scoreWeights email
  { isInvoice := decide (configConfidenceThreshold ≤ confidenceScore)
    confidenceScore := confidenceScore }

/-- InvoiceService.detectInvoices: keeps exactly the emails whose analysis
is classified as invoice and re-passes the config threshold, marking each
kept email's `isInvoice` flag. -/
def detectInvoices (kw : InvoiceKeywords) (pat : InvoicePatterns)
    (emails : List EmailMessage) : List EmailMessage :=
  emails.filterMap (fun email =>
    let detection := analyzeEmail kw pat email
    if detection.isInvoice &&
       decide (configConfidenceThreshold ≤ detection.confidenceScore)
    then some { email with isInvoice := some true }
    else none)

/-! ## Cache (src/services/CacheService.ts) -/

/-- State of one `CacheService` instance specialised to a value type: an
association of keys to stored data and absolute expiry instants (epoch
milliseconds), mirroring `Map<string, (data, expireTime)>`. -/
structure CacheState (α : Type) where
  entries : List (String × α × Int)
deriving DecidableEq

/-- CacheService.set: `expireTime = Date.now() + ttl` (every call in the
embedded paths passes an explicit non-zero ttl, so the `|| defaultTTL`
fallback is never taken); `Map.set` overwrites any previous binding. -/
def cacheSet {α : Type} (c : CacheState α) (key : String) (v : α)
    (now ttl : Int) : CacheState α :=
  ⟨(key, v, now + ttl) :: c.entries.filter (fun en => en.1 ≠ key)⟩

/-- CacheService.get: a missing key yields `none`; an entry with
`Date.now() > expireTime` is deleted and yields `none`; otherwise the stored
data is returned and the state unchanged. -/
def cacheGet {α : Type} (c : CacheState α) (now : Int) (key : String) :
    Option α × CacheState α :=
  match c.entries.find? (fun en => en.1 == key) with
  | none => (none, c)
  | some en =>
    if en.2.2 < now then (none, ⟨c.entries.filter (fun e2 => e2.1 ≠ key)⟩)
    else (some en.2.1, c)

/-- CacheService.getConnectionTestKey. -/
def getConnectionTestKey (email server : String) (port : Nat) : String :=
  "connection_test:" ++ email ++ ":" ++ server ++ ":" ++ Nat.repr port

/-- CacheService.getEmailFetchKey: starts from `[email, mailbox, limit]`,
pushes `from:`/`since:` segments only for truthy filters, then joins with
`":"`.  The recipient filter is not a parameter of this function. -/
def getEmailFetchKey (email mailbox : String) (limit : Nat)
    (fromFilter sinceFilter : Option String) : String :=
  let params := [email, mailbox, Nat.repr limit]
  let params := if jsTruthy fromFilter
    then params ++ ["from:" ++ (fromFilter.getD "")] else params
  let params := if jsTruthy sinceFilter
    then params ++ ["since:" ++ (sinceFilter.getD "")] else params
  "email_fetch:" ++ String.intercalate ":" params

/-- CacheService.getInvoiceDetectionKey. -/
def getInvoiceDetectionKey (emailId : String) : String :=
  "invoice_detection:" ++ emailId

/-! ## Single-message path: detectSingleInvoice -/

/-- The scoring payload cached and returned by `detectSingleInvoice`
(`email`, `invoiceInfo` and the error note carry no score and are not
embedded; `detectedAt` is the ISO timestamp, kept as the clock value). -/
structure DetectionResult where
  emailId : String
  isInvoice : Bool
  confidence : Int
  subjectScore : Int
  senderScore : Int
  contentScore : Int
  attachmentScore : Int
  detectedAt : Int
deriving DecidableEq

/-- InvoiceService.detectSingleInvoice: computed over the instance state
(`this.keywords`, `this.patterns`, `this.scoreWeights`,
`this.confidenceThreshold = 0.3`).  A cached result is returned directly;
otherwise the four analyzer scores are combined, classified with
`totalScore >= this.confidenceThreshold`, and the result is cached for
30 minutes.  The persistence side effect (`saveInvoiceInfo`) does not touch
the returned scores and is not embedded. -/
def detectSingleInvoice (kw : InvoiceKeywords) (pat : InvoicePatterns)
    (cache : CacheState DetectionResult) (now : Int) (email : EmailMessage) :
    DetectionResult × CacheState DetectionResult :=
  let cacheKey := getInvoiceDetectionKey email.id
  match cacheGet cache now cacheKey with
  | (some cached, c1) => (cached, c1)
  | (none, c1) =>
    let subjectScore := analyzeSubject kw email.subject
    let senderScore := analyzeSender kw email.«from»
    let contentScore := analyzeContent kw pat email.body
    let attachmentScore := analyzeAttachments email
    let totalScore :=
      subjectScore * scoreWeights.subject +
      senderScore * scoreWeights.sender +
      contentScore * scoreWeights.content +
      attachmentScore * scoreWeights.attachment
    let result : DetectionResult :=
      { emailId := email.id
        isInvoice := decide (confidenceThreshold ≤ totalScore)
        confidence := totalScore
        subjectScore := subjectScore
        senderScore := senderScore
        contentScore := contentScore
        attachmentScore := attachmentScore
        detectedAt := now }
    (result, cacheSet c1 cacheKey result now (30 * 60 * 1000))

/-! ## Message normalizer (EmailService.parseEmailMessage) -/

/-- One attachment as delivered by `mailparser` (`parsed.attachments[i]`):
`filename` may be absent, `contentType` and `size` are always present.  The
raw content buffer is not embedded. -/
structure ParsedAttachment where
  filename : Option String
  contentType : String
  size : Nat
deriving DecidableEq

/-- One mailparser address entry (`{ address?, text? }`). -/
structure AddressEntry where
  address : Option String
  text : Option String
deriving DecidableEq

/-- The shapes `extractEmailAddress` distinguishes: absent, an array of
entries, a single entry object, or any other value coerced with `String()`. -/
inductive AddressInfo where
  | absent
  | arr (entries : List AddressEntry)
  | obj (entry : AddressEntry)
  | str (s : String)
deriving DecidableEq

/-- Display string of one entry: `addr.address || addr.text || ''` with
JavaScript falsiness (absent and empty both fall through). -/
def addressEntryString (e : AddressEntry) : String :=
  jsStrOr (e.address.getD "") (jsStrOr (e.text.getD "") "")

/-- EmailService.extractEmailAddress: arrays are mapped and comma-joined,
single objects yield their display string, anything else is stringified. -/
def extractEmailAddress : AddressInfo → String
  | .absent => ""
  | .arr entries => String.intercalate ", " (entries.map addressEntryString)
  | .obj entry => addressEntryString entry
  | .str s => s

/-- The fields of a `mailparser` `ParsedMail` consumed by
`parseEmailMessage`.  `html` is `string | false` in mailparser, embedded as
an optional string. -/
structure ParsedMail where
  attachments : List ParsedAttachment
  subject : Option String
  text : Option String
  html : Option String
  «from» : AddressInfo
  «to» : AddressInfo
  date : Option Int
  messageId : Option String
deriving DecidableEq

/-- EmailService.parseEmailMessage: attachments with
`size <= config.email.attachmentSizeLimit` are kept (with
`filename || 'unknown'`), larger ones are dropped; `hasAttachments` is
`attachments.length > 0` over the kept list; the body prefers `text` over
`html`; `date` falls back to `new Date()` and the missing message id to
`seq-<seqno>`.  The generated `uuidv4()` id and the current clock enter as
the arguments `newId` and `now`. -/
def parseEmailMessage (parsed : ParsedMail) (seqno : Nat)
    (newId : String) (now : Int) : EmailMessage :=
  let attachments := parsed.attachments.filterMap (fun a =>
    if a.size ≤ attachmentSizeLimit then
      some { filename := jsStrOr (a.filename.getD "") "unknown"
             contentType := a.contentType
             size := a.size : EmailAttachment }
    else none)
  let subject := (parsed.subject.getD "")
  let body := jsStrOr (parsed.text.getD "") (jsStrOr (parsed.html.getD "") "")
  { id := newId
    messageId := jsStrOr (parsed.messageId.getD "") ("seq-" ++ Nat.repr seqno)
    «from» := extractEmailAddress parsed.«from»
    «to» := extractEmailAddress parsed.«to»
    subject := subject
    title := subject
    body := body
    content := body
    date := parsed.date.getD now
    hasAttachments := decide (attachments.length > 0)
    attachments := attachments
    createdAt := now }

/-! ## Fetch pipelines (EmailService.fetchEmails and helpers) -/

/-- EmailQueryParams of `src/types/index.ts` (credentials, server and
protocol selector are consumed only by the connection layer and are not
embedded; `since` is the raw filter string). -/
structure EmailQueryParams where
  email_address : String
  mail_box : Option String
  limit : Option Nat
  fromFilter : Option String
  toFilter : Option String
  since : Option String
deriving DecidableEq

/-- EmailFetchResult of `src/types/index.ts`. -/
structure EmailFetchResult where
  success : Bool
  message : String
  emails : List EmailMessage
  total : Nat
deriving DecidableEq

/-- Result of parsing a date string with `moment(s, "YYYY/MM/DD HH:mm")`:
either invalid, or the denoted instant in epoch milliseconds.  The moment
library is an external collaborator; the pipelines receive its parser as an
oracle argument. -/
inductive ParsedMoment where
  | invalid
  | valid (ms : Int)
deriving DecidableEq

/-- JavaScript `moment(emailTime).isSameOrAfter(sinceTime)`: comparisons
against an invalid moment are false. -/
def momentIsSameOrAfter (emailTime : Int) : ParsedMoment → Bool
  | .invalid => false
  | .valid t => decide (t ≤ emailTime)

/-- The client-side since re-check shared by both protocol paths:
`emails.filter(email => moment(email.date).isSameOrAfter(sinceTime))`. -/
def applySinceFilter (pm : ParsedMoment) (emails : List EmailMessage) :
    List EmailMessage :=
  emails.filter (fun email => momentIsSameOrAfter email.date pm)

/-- JavaScript `queryParams.limit || 10`: an absent limit and the falsy
limit `0` both become the default 10. -/
def effLimit : Option Nat → Nat
  | none => 10
  | some n => if n = 0 then 10 else n

/-- Insertion step of the descending-by-date sort. -/
def insertByDateDesc (e : EmailMessage) : List EmailMessage → List EmailMessage
  | [] => [e]
  | x :: xs =>
    if x.date < e.date then e :: x :: xs else x :: insertByDateDesc e xs

/-- The sort `emails.sort((a, b) => b.date.getTime() - a.date.getTime())`
applied by both detail fetchers, embedded as a stable insertion sort by
descending timestamp. -/
def sortByDateDesc : List EmailMessage → List EmailMessage
  | [] => []
  | e :: es => insertByDateDesc e (sortByDateDesc es)

/-- EmailService.fetchEmailDetails (IMAP): each uid's raw body is parsed;
a message whose parse fails is logged and skipped (`retrieve` returns
`none`); the collected messages are sorted newest-first.  The network fetch
and MIME parse are the oracle `retrieve`. -/
def fetchEmailDetails (retrieve : Nat → Option EmailMessage)
    (uids : List Nat) : List EmailMessage :=
  sortByDateDesc (uids.filterMap retrieve)

/-- EmailService.fetchEmailsIMAP after `connectIMAP`/`openBox`/`search`:
the server's uid list arrives newest-last and is reversed
(`searchEmails` resolves `uids.reverse()`), sliced to the limit, fetched,
and re-filtered client-side by `since` when present.  Storage and cache
writes do not change the returned value. -/
def fetchEmailsIMAPResult (q : EmailQueryParams)
    (momentParse : String → ParsedMoment) (searchUids : List Nat)
    (retrieve : Nat → Option EmailMessage) : EmailFetchResult :=
  let messageIds := searchUids.reverse
  if messageIds.isEmpty then
    { success := true, message := "没有找到符合条件的邮件", emails := [], total := 0 }
  else
    let limitedIds := messageIds.take (effLimit q.limit)
    let fetched := fetchEmailDetails retrieve limitedIds
    let emails := match q.since with
      | none => fetched
      | some s => applySinceFilter (momentParse s) fetched
    { success := true
      message := "成功获取 " ++ Nat.repr emails.length ++ " 封邮件"
      emails := emails
      total := emails.length }

/-- EmailService.fetchPOP3EmailDetails: the sequential per-message loop.
For each `(msgNumber, size)` entry the message is retrieved and parsed; a
failure on one message is logged and skipped (`Except.error`) and the loop
continues; the survivors are sorted newest-first. -/
def fetchPOP3EmailDetails (retrieve : Nat → Except String EmailMessage)
    (emailList : List (Nat × Nat)) : List EmailMessage :=
  sortByDateDesc (emailList.filterMap (fun info => (retrieve info.1).toOption))

/-- The POP3 time filter stage ("客户端时间过滤"): with a `since` string the
filter applies only when the string parses as a valid moment (an invalid
one only logs a warning and leaves the list unchanged); without `since` the
messages are restricted to the start of the current day (`todayStart`). -/
def pop3SinceStage (q : EmailQueryParams)
    (momentParse : String → ParsedMoment) (todayStart : Int)
    (emails : List EmailMessage) : List EmailMessage :=
  match q.since with
  | some s =>
    match momentParse s with
    | .invalid => emails
    | .valid t => applySinceFilter (.valid t) emails
  | none => emails.filter (fun email => decide (todayStart ≤ email.date))

/-- The POP3 sender filter stage ("发件人过滤"): a truthy `from` keeps the
messages whose sender contains it, case-insensitively. -/
def pop3FromStage (q : EmailQueryParams) (emails : List EmailMessage) :
    List EmailMessage :=
  match q.fromFilter with
  | some f =>
    if f.isEmpty then emails
    else emails.filter (fun email =>
      strIncludes (lowerString email.«from») (lowerString f))
  | none => emails

/-- The POP3 recipient filter stage ("收件人过滤"): a truthy `to` keeps the
messages whose recipient contains it, case-insensitively. -/
def pop3ToStage (q : EmailQueryParams) (emails : List EmailMessage) :
    List EmailMessage :=
  match q.toFilter with
  | some t =>
    if t.isEmpty then emails
    else emails.filter (fun email =>
      strIncludes (lowerString email.«to») (lowerString t))
  | none => emails

/-- EmailService.fetchEmailsPOP3 after connect and `list`: the listed
`(msgNumber, size)` pairs are sliced to the last `limit` entries and
reversed (`emailList.slice(-limit).reverse()`), retrieved one by one, then
passed through the three client-side filter stages. -/
def fetchEmailsPOP3Result (q : EmailQueryParams)
    (momentParse : String → ParsedMoment) (todayStart : Int)
    (emailList : List (Nat × Nat))
    (retrieve : Nat → Except String EmailMessage) : EmailFetchResult :=
  if emailList.isEmpty then
    { success := true, message := "没有找到符合条件的邮件", emails := [], total := 0 }
  else
    let limit := effLimit q.limit
    let limitedList := (emailList.drop (emailList.length - limit)).reverse
    let emails := fetchPOP3EmailDetails retrieve limitedList
    let afterTo := pop3ToStage q (pop3FromStage q
      (pop3SinceStage q momentParse todayStart emails))
    { success := true
      message := "成功获取 " ++ Nat.repr afterTo.length ++ " 封邮件"
      emails := afterTo
      total := afterTo.length }

/-- The cache key built at the top of `fetchEmails`:
`CacheService.getEmailFetchKey(email_address, mail_box || 'INBOX',
limit || 10, from, since)`.  The recipient filter `to` is not passed. -/
def fetchEmailsCacheKey (q : EmailQueryParams) : String :=
  getEmailFetchKey q.email_address (jsStrOr ((q.mail_box).getD "") "INBOX")
    (effLimit q.limit) q.fromFilter q.since

/-- Outcome of one `fetchEmails` call: the returned result, the cache state
after the call, and whether the catch branch ran `await this.disconnect()`
before building the failure result. -/
structure FetchOutcome where
  result : EmailFetchResult
  cache : CacheState EmailFetchResult
  catchDisconnected : Bool
deriving DecidableEq

/-- EmailService.fetchEmails: dispatches to a protocol-specific body and
wraps it in the catch branch.  The body is abstracted as `inner`: on
success it yields the fetch result together with the cache it updated (the
protocol paths perform their own `cacheService.set` right before
resolving); a rejected promise carries only the error message — in the
source no cache write precedes any rejection.  The catch branch
disconnects, then returns a failure result with an empty list and total 0,
and deliberately does not cache it ("不缓存失败结果，直接返回"). -/
def fetchEmails
    (inner : CacheState EmailFetchResult →
      Except String (EmailFetchResult × CacheState EmailFetchResult))
    (cache : CacheState EmailFetchResult) : FetchOutcome :=
  match inner cache with
  | .ok (r, c2) => { result := r, cache := c2, catchDisconnected := false }
  | .error msg =>
    { result :=
        { success := false
          message := "获取邮件失败: " ++ msg
          emails := []
          total := 0 }
      cache := cache
      catchDisconnected := true }

/-! ## General lemmas about the accumulation loops -/

/-- A loop that adds the constant `c` whenever the predicate holds computes
`init + c * count`. -/
theorem foldl_condAdd {α : Type} (p : α → Bool) (c : Int) (l : List α) :
    ∀ init : Int,
      l.foldl (fun sc a => if p a then sc + c else sc) init
        = init + c * l.countP p := by
  induction l with
  | nil => intro init; simp
  | cons a t ih =>
    intro init
    simp only [List.foldl_cons, List.countP_cons, ih]
    by_cases h : p a = true
    · simp only [h, if_true, Nat.cast_add, Nat.cast_one]
      ring
    · simp [h]

/-- A loop that adds `f a` for every element computes `init + sum of f`. -/
theorem foldl_addMap {α : Type} (f : α → Int) (l : List α) :
    ∀ init : Int,
      l.foldl (fun sc a => sc + f a) init = init + (l.map f).sum := by
  induction l with
  | nil => intro init; simp
  | cons a t ih =>
    intro init
    simp only [List.foldl_cons, List.map_cons, List.sum_cons, ih]
    ring

/-! ## Bounds of the four analyzers (C1 infrastructure) -/

theorem analyzeSubject_bounds (kw : InvoiceKeywords) (s : String) :
    0 ≤ analyzeSubject kw s ∧ analyzeSubject kw s ≤ 10 := by
  simp only [analyzeSubject]
  split
  · norm_num
  · refine ⟨le_min ?_ (by norm_num), min_le_right _ _⟩
    rw [foldl_condAdd, foldl_condAdd]
    split <;> positivity

theorem analyzeSender_bounds (kw : InvoiceKeywords) (s : String) :
    0 ≤ analyzeSender kw s ∧ analyzeSender kw s ≤ 10 := by
  simp only [analyzeSender]
  split
  · norm_num
  · refine ⟨le_min ?_ (by norm_num), min_le_right _ _⟩
    rw [foldl_condAdd]
    split <;> positivity

theorem analyzeContent_bounds (kw : InvoiceKeywords) (pat : InvoicePatterns)
    (s : String) :
    0 ≤ analyzeContent kw pat s ∧ analyzeContent kw pat s ≤ 10 := by
  simp only [analyzeContent]
  split
  · norm_num
  · refine ⟨le_min ?_ (by norm_num), min_le_right _ _⟩
    split_ifs <;> norm_num

theorem attachmentItemScore_nonneg (a : EmailAttachment) :
    0 ≤ attachmentItemScore a := by
  simp only [attachmentItemScore]
  split_ifs <;> norm_num

theorem analyzeAttachments_bounds (email : EmailMessage) :
    0 ≤ analyzeAttachments email ∧ analyzeAttachments email ≤ 10 := by
  simp only [analyzeAttachments]
  split
  · norm_num
  · refine ⟨le_min ?_ (by norm_num), min_le_right _ _⟩
    rw [foldl_addMap]
    have h : 0 ≤ (email.attachments.map attachmentItemScore).sum := by
      apply List.sum_nonneg
      intro x hx
      rcases List.mem_map.mp hx with ⟨a, _, rfl⟩
      exact attachmentItemScore_nonneg a
    omega

/-- C1: for every message and every keyword configuration, each of the four
partial analyzer scores is non-negative and clamped to [0, 1] before
weighting (1.0 is `10` in the fixed-point tenths representation), the four
default score weights sum to 1.0 (`10` tenths), and the combined confidence
— the weighted sum of the four partials — lies in [0.0, 1.0] (`0 … 100`
hundredths).  The statement quantifies over all keyword configurations and
all pattern tests, so it covers every configured keyword set. -/
theorem confidence_within_unit_interval (kw : InvoiceKeywords)
    (pat : InvoicePatterns) (email : EmailMessage) :
    (0 ≤ analyzeSubject kw email.subject ∧ analyzeSubject kw email.subject ≤ 10)
    ∧ (0 ≤ analyzeSender kw email.«from» ∧ analyzeSender kw email.«from» ≤ 10)
    ∧ (0 ≤ analyzeContent kw pat email.body ∧ analyzeContent kw pat email.body ≤ 10)
    ∧ (0 ≤ analyzeAttachments email ∧ analyzeAttachments email ≤ 10)
    ∧ scoreWeights.subject + scoreWeights.sender + scoreWeights.content
        + scoreWeights.attachment = 10
    ∧ (0 ≤ combinedConfidence kw pat scoreWeights email
       ∧ combinedConfidence kw pat scoreWeights email ≤ 100) := by
  obtain ⟨h1a, h1b⟩ := analyzeSubject_bounds kw email.subject
  obtain ⟨h2a, h2b⟩ := analyzeSender_bounds kw email.«from»
  obtain ⟨h3a, h3b⟩ := analyzeContent_bounds kw pat email.body
  obtain ⟨h4a, h4b⟩ := analyzeAttachments_bounds email
  refine ⟨⟨h1a, h1b⟩, ⟨h2a, h2b⟩, ⟨h3a, h3b⟩, ⟨h4a, h4b⟩, by decide, ?_, ?_⟩ <;>
    · simp only [combinedConfidence, scoreWeights]
      omega

/-! ## C3: the default combination weights -/

/-- C3 counterexample: in the weights actually used for the combination
(`InvoiceService.scoreWeights`), the sender weight (0.2) is NOT lower than
the attachment weight (0.2) — they are equal — and the sender and content
weights are not roughly equal: sender (0.2) is twice content (0.1).  This
refutes the claim that the attachment weight is strictly second with sender
and content below it and roughly equal to each other. -/
theorem scoreWeights_counterexample :
    scoreWeights.sender = scoreWeights.attachment
    ∧ ¬ scoreWeights.sender < scoreWeights.attachment
    ∧ scoreWeights.sender = 2 * scoreWeights.content := by
  decide

/-- C3 amended: the default combination weights (0.5 / 0.2 / 0.1 / 0.2 in
tenths) sum to 1.0 and are subject-heaviest — subject is strictly highest;
the attachment and sender weights are tied in second place; content is
strictly lowest.  The separate config-file weights
(`config.invoice.scoreWeights`, 0.3 / 0.2 / 0.3 / 0.2) also sum to 1.0. -/
theorem scoreWeights_amended :
    scoreWeights.subject + scoreWeights.sender + scoreWeights.content
      + scoreWeights.attachment = 10
    ∧ scoreWeights.sender < scoreWeights.subject
    ∧ scoreWeights.content < scoreWeights.subject
    ∧ scoreWeights.attachment < scoreWeights.subject
    ∧ scoreWeights.attachment = scoreWeights.sender
    ∧ scoreWeights.content < scoreWeights.attachment
    ∧ configScoreWeights.subject + configScoreWeights.sender
        + configScoreWeights.content + configScoreWeights.attachment = 10 := by
  decide

/-! ## C2: classification thresholds on the two detection paths -/

/-- Test fixture: pattern tests that match nothing. -/
def emptyPatterns : InvoicePatterns :=
  { invoiceNumber := fun _ => false
    amount := fun _ => false
    taxNumber := fun _ => false
    date := fun _ => false
    company := fun _ => false }

/-- Test fixture: a message whose only signals are an invoice-issuing
sender domain and one PDF attachment, giving combined confidence
10·0.2 + 8·0.2 = 0.36 (36 hundredths). -/
def midConfidenceEmail : EmailMessage :=
  { id := "c2-email"
    messageId := "c2"
    «from» := "finance@example.com"
    «to» := "me@example.com"
    subject := ""
    title := ""
    body := ""
    content := ""
    date := 0
    hasAttachments := true
    attachments := [{ filename := "a.pdf", contentType := "application/pdf", size := 1024 }]
    createdAt := 0 }

/-- C2 counterexample: a concrete message with combined confidence 0.36.
Its confidence is above the claimed default threshold of ≈0.3
(`confidenceThreshold = 30` hundredths), and the single-message path indeed
classifies it as an invoice, but the batch `analyzeEmail` path does not —
that path compares against `config.invoice.confidenceThreshold`, whose
default is 0.5, refuting the claim that every detection path classifies at
a default threshold of ≈0.3. -/
theorem batch_threshold_counterexample :
    (analyzeEmail defaultKeywords emptyPatterns midConfidenceEmail).confidenceScore = 36
    ∧ confidenceThreshold
        ≤ (analyzeEmail defaultKeywords emptyPatterns midConfidenceEmail).confidenceScore
    ∧ (analyzeEmail defaultKeywords emptyPatterns midConfidenceEmail).isInvoice = false
    ∧ (detectSingleInvoice defaultKeywords emptyPatterns ⟨[]⟩ 0 midConfidenceEmail).1.isInvoice
        = true := by
  decide

/-- C2 amended: each detection path classifies a message as an invoice
exactly when its combined confidence reaches that path's own threshold —
the single-message path (`detectSingleInvoice`, on a cache miss) uses the
service default 0.3 (`30` hundredths), while the batch `analyzeEmail` path
uses `config.invoice.confidenceThreshold`, whose default is 0.5 (`50`
hundredths); the ≈0.3 default applies only to the single-message path. -/
theorem classification_iff_threshold (kw : InvoiceKeywords)
    (pat : InvoicePatterns) (cache : CacheState DetectionResult) (now : Int)
    (email : EmailMessage)
    (h : (cacheGet cache now (getInvoiceDetectionKey email.id)).1 = none) :
    (detectSingleInvoice kw pat cache now email).1.isInvoice
      = decide (confidenceThreshold ≤ combinedConfidence kw pat scoreWeights email)
    ∧ (analyzeEmail kw pat email).isInvoice
      = decide (configConfidenceThreshold ≤ combinedConfidence kw pat scoreWeights email)
    ∧ confidenceThreshold = 30
    ∧ configConfidenceThreshold = 50 := by
  refine ⟨?_, rfl, rfl, rfl⟩
  rcases hcg : cacheGet cache now (getInvoiceDetectionKey email.id) with ⟨o, c1⟩
  rw [hcg] at h
  simp only at h
  subst h
  simp [detectSingleInvoice, hcg, combinedConfidence]

/-- Witness for the amended C2 theorem at a concrete message and an empty
cache. -/
theorem classification_iff_threshold_witness :
    (detectSingleInvoice defaultKeywords emptyPatterns ⟨[]⟩ 0 midConfidenceEmail).1.isInvoice
      = decide (confidenceThreshold
          ≤ combinedConfidence defaultKeywords emptyPatterns scoreWeights midConfidenceEmail) :=
  (classification_iff_threshold defaultKeywords emptyPatterns ⟨[]⟩ 0
    midConfidenceEmail (by decide)).1

/-! ## C6: idempotence of detection -/

/-- C6: invoice detection is idempotent and deterministic.  Running
`detectSingleInvoice` twice on the same message, with the same keyword
configuration, patterns, weights and threshold (all part of the fixed
instance state) and starting from a cache with no entry for the message,
yields the same confidence and the same classification on both runs,
whatever the two clock values are: the second run either hits the cached
first result or — if the entry has expired — recomputes the identical pure
score. -/
theorem detection_idempotent (kw : InvoiceKeywords) (pat : InvoicePatterns)
    (c0 : CacheState DetectionResult) (t1 t2 : Int) (email : EmailMessage)
    (h : c0.entries.find? (fun en => en.1 == getInvoiceDetectionKey email.id) = none) :
    ((detectSingleInvoice kw pat (detectSingleInvoice kw pat c0 t1 email).2 t2 email).1.confidence
      = (detectSingleInvoice kw pat c0 t1 email).1.confidence)
    ∧ ((detectSingleInvoice kw pat (detectSingleInvoice kw pat c0 t1 email).2 t2 email).1.isInvoice
      = (detectSingleInvoice kw pat c0 t1 email).1.isInvoice) := by
  have hget1 : cacheGet c0 t1 (getInvoiceDetectionKey email.id) = (none, c0) := by
    simp [cacheGet, h]
  constructor <;>
  · simp only [detectSingleInvoice, hget1]
    by_cases hexp : t1 + 1800000 < t2 <;>
      simp [cacheGet, cacheSet, List.find?, beq_self_eq_true, hexp]

/-- Witness for C6 at a concrete message, empty cache and two clock
values. -/
theorem detection_idempotent_witness :
    ((detectSingleInvoice defaultKeywords emptyPatterns
        (detectSingleInvoice defaultKeywords emptyPatterns ⟨[]⟩ 0 midConfidenceEmail).2
        1 midConfidenceEmail).1.confidence
      = (detectSingleInvoice defaultKeywords emptyPatterns ⟨[]⟩ 0 midConfidenceEmail).1.confidence) :=
  (detection_idempotent defaultKeywords emptyPatterns ⟨[]⟩ 0 1 midConfidenceEmail
    (by decide)).1

/-! ## C10: the fetchEmails failure path -/

/-- C10: whenever the protocol-specific body of `fetchEmails` fails (a
rejected promise from connection, authentication, listing or any unhandled
protocol error), the catch branch disconnects, returns a structured result
with `success = false`, an empty email list and `total = 0` whose message
carries the human-readable reason, and leaves the result cache exactly as
it was — the failure is never written to the cache, so an identical
follow-up request runs the protocol body (the network operation) again
instead of replaying the failure. -/
theorem fetch_failure_not_cached
    (inner : CacheState EmailFetchResult →
      Except String (EmailFetchResult × CacheState EmailFetchResult))
    (cache : CacheState EmailFetchResult) (msg : String)
    (herr : inner cache = .error msg) :
    (fetchEmails inner cache).catchDisconnected = true
    ∧ (fetchEmails inner cache).result.success = false
    ∧ (fetchEmails inner cache).result.emails = []
    ∧ (fetchEmails inner cache).result.total = 0
    ∧ (fetchEmails inner cache).result.message = "获取邮件失败: " ++ msg
    ∧ (fetchEmails inner cache).cache = cache
    ∧ (∀ inner2 : CacheState EmailFetchResult →
        Except String (EmailFetchResult × CacheState EmailFetchResult),
        fetchEmails inner2 ((fetchEmails inner cache).cache)
          = fetchEmails inner2 cache) := by
  simp [fetchEmails, herr]

/-- Witness for C10 with a concrete failing protocol body. -/
theorem fetch_failure_not_cached_witness :
    (fetchEmails (fun _ => .error "连接超时") (⟨[]⟩ : CacheState EmailFetchResult)).result.success
      = false
    ∧ (fetchEmails (fun _ => .error "连接超时") (⟨[]⟩ : CacheState EmailFetchResult)).cache
      = (⟨[]⟩ : CacheState EmailFetchResult) :=
  ⟨(fetch_failure_not_cached (fun _ => .error "连接超时") ⟨[]⟩ "连接超时" rfl).2.1,
   (fetch_failure_not_cached (fun _ => .error "连接超时") ⟨[]⟩ "连接超时" rfl).2.2.2.2.2.1⟩

/-! ## Lemmas about the sort and the filter stages -/

theorem length_insertByDateDesc (e : EmailMessage) (l : List EmailMessage) :
    (insertByDateDesc e l).length = l.length + 1 := by
  induction l with
  | nil => rfl
  | cons x xs ih =>
    simp only [insertByDateDesc]
    split <;> simp [ih]

theorem length_sortByDateDesc (l : List EmailMessage) :
    (sortByDateDesc l).length = l.length := by
  induction l with
  | nil => rfl
  | cons e es ih => simp [sortByDateDesc, length_insertByDateDesc, ih]

theorem insertByDateDesc_perm (e : EmailMessage) (l : List EmailMessage) :
    List.Perm (insertByDateDesc e l) (e :: l) := by
  induction l with
  | nil => exact List.Perm.refl _
  | cons x xs ih =>
    simp only [insertByDateDesc]
    split
    · exact List.Perm.refl _
    · exact (List.Perm.cons x ih).trans (List.Perm.swap e x xs)

theorem sortByDateDesc_perm (l : List EmailMessage) :
    List.Perm (sortByDateDesc l) l := by
  induction l with
  | nil => exact List.Perm.refl _
  | cons e es ih =>
    exact (insertByDateDesc_perm e (sortByDateDesc es)).trans (List.Perm.cons e ih)

theorem mem_sortByDateDesc {e : EmailMessage} {l : List EmailMessage} :
    e ∈ sortByDateDesc l ↔ e ∈ l :=
  (sortByDateDesc_perm l).mem_iff

theorem length_filterMap_eq_countP {α β : Type} (f : α → Option β) (l : List α) :
    (l.filterMap f).length = l.countP (fun a => (f a).isSome) := by
  induction l with
  | nil => rfl
  | cons a t ih =>
    cases h : f a <;> simp [List.filterMap_cons, h, List.countP_cons, ih]

theorem mem_applySinceFilter_valid {t : Int} {l : List EmailMessage}
    {e : EmailMessage} :
    e ∈ applySinceFilter (.valid t) l ↔ e ∈ l ∧ t ≤ e.date := by
  simp [applySinceFilter, List.mem_filter, momentIsSameOrAfter]

theorem pop3SinceStage_length_le (q : EmailQueryParams)
    (mp : String → ParsedMoment) (ts : Int) (l : List EmailMessage) :
    (pop3SinceStage q mp ts l).length ≤ l.length := by
  rcases hq : q.since with _ | s
  · simp only [pop3SinceStage, hq]
    exact List.length_filter_le _ _
  · rcases hm : mp s with _ | t
    · simp [pop3SinceStage, hq, hm]
    · simp only [pop3SinceStage, hq, hm, applySinceFilter]
      exact List.length_filter_le _ _

theorem pop3FromStage_length_le (q : EmailQueryParams) (l : List EmailMessage) :
    (pop3FromStage q l).length ≤ l.length := by
  rcases hq : q.fromFilter with _ | f
  · simp [pop3FromStage, hq]
  · by_cases hf : f.isEmpty
    · simp [pop3FromStage, hq, hf]
    · simp only [pop3FromStage, hq, hf, Bool.false_eq_true, if_false]
      exact List.length_filter_le _ _

theorem pop3ToStage_length_le (q : EmailQueryParams) (l : List EmailMessage) :
    (pop3ToStage q l).length ≤ l.length := by
  rcases hq : q.toFilter with _ | t
  · simp [pop3ToStage, hq]
  · by_cases ht : t.isEmpty
    · simp [pop3ToStage, hq, ht]
    · simp only [pop3ToStage, hq, ht, Bool.false_eq_true, if_false]
      exact List.length_filter_le _ _

theorem mem_of_mem_pop3FromStage {q : EmailQueryParams} {l : List EmailMessage}
    {e : EmailMessage} (h : e ∈ pop3FromStage q l) : e ∈ l := by
  rcases hq : q.fromFilter with _ | f
  · simpa [pop3FromStage, hq] using h
  · by_cases hf : f.isEmpty
    · simpa [pop3FromStage, hq, hf] using h
    · simp only [pop3FromStage, hq, hf, Bool.false_eq_true, if_false] at h
      exact List.mem_of_mem_filter h

theorem mem_of_mem_pop3ToStage {q : EmailQueryParams} {l : List EmailMessage}
    {e : EmailMessage} (h : e ∈ pop3ToStage q l) : e ∈ l := by
  rcases hq : q.toFilter with _ | t
  · simpa [pop3ToStage, hq] using h
  · by_cases ht : t.isEmpty
    · simpa [pop3ToStage, hq, ht] using h
    · simp only [pop3ToStage, hq, ht, Bool.false_eq_true, if_false] at h
      exact List.mem_of_mem_filter h

theorem pop3SinceStage_of_valid {q : EmailQueryParams}
    {mp : String → ParsedMoment} {ts t : Int} {s : String}
    (hs : q.since = some s) (hv : mp s = .valid t) (l : List EmailMessage) :
    pop3SinceStage q mp ts l = applySinceFilter (.valid t) l := by
  simp only [pop3SinceStage, hs, hv]

/-! ## C4: the explicit since lower bound -/

/-- C4: for every fetch request carrying an explicit lower bound `since`
that parses to the instant `t`, every message in the returned set has a
timestamp ≥ `t`, under both protocol variants: the IMAP path re-filters
client-side after retrieval (its server-side SINCE search, abstracted in
`searchUids`, is date-only and cannot be relied on), and the POP3 path
filters entirely client-side.  The final conjunct characterises the shared
client-side re-check: a message at or after the instant is kept and a
strictly earlier one is excluded. -/
theorem since_lower_bound_enforced (q : EmailQueryParams)
    (momentParse : String → ParsedMoment) (todayStart t : Int)
    (searchUids : List Nat) (retrieveIMAP : Nat → Option EmailMessage)
    (emailList : List (Nat × Nat))
    (retrievePOP3 : Nat → Except String EmailMessage) (s : String)
    (hs : q.since = some s) (hv : momentParse s = .valid t) :
    (∀ e ∈ (fetchEmailsIMAPResult q momentParse searchUids retrieveIMAP).emails,
        t ≤ e.date)
    ∧ (∀ e ∈ (fetchEmailsPOP3Result q momentParse todayStart emailList
          retrievePOP3).emails, t ≤ e.date)
    ∧ (∀ (l : List EmailMessage) (e : EmailMessage),
        e ∈ applySinceFilter (.valid t) l ↔ e ∈ l ∧ t ≤ e.date) := by
  refine ⟨?_, ?_, fun l e => mem_applySinceFilter_valid⟩
  · simp only [fetchEmailsIMAPResult]
    split
    · intro e he
      simp at he
    · intro e he
      simp only [hs, hv] at he
      exact (mem_applySinceFilter_valid.mp he).2
  · simp only [fetchEmailsPOP3Result]
    split
    · intro e he
      simp at he
    · intro e he
      simp only at he
      have h1 : e ∈ pop3SinceStage q momentParse todayStart
          (fetchPOP3EmailDetails retrievePOP3
            ((emailList.drop (emailList.length - effLimit q.limit)).reverse)) :=
        mem_of_mem_pop3FromStage (mem_of_mem_pop3ToStage he)
      rw [pop3SinceStage_of_valid hs hv] at h1
      exact (mem_applySinceFilter_valid.mp h1).2

/-- Test fixture: the moment parser restricted to the one since string the
witness uses (an arbitrary epoch instant standing for 2025/06/08 22:03). -/
def fixtureMomentParse : String → ParsedMoment :=
  fun s => if s == "2025/06/08 22:03" then .valid 1749420180000 else .invalid

/-- Test fixture: a message dated exactly at the witness boundary. -/
def boundaryEmail : EmailMessage :=
  { id := "c4-email"
    messageId := "c4"
    «from» := "billing@shop.example"
    «to» := "me@example.com"
    subject := "invoice"
    title := "invoice"
    body := ""
    content := ""
    date := 1749420180000
    hasAttachments := false
    attachments := []
    createdAt := 0 }

/-- Test fixture: a fetch request with the literal since string. -/
def sinceQuery : EmailQueryParams :=
  { email_address := "user@example.com"
    mail_box := some "INBOX"
    limit := some 10
    fromFilter := none
    toFilter := none
    since := some "2025/06/08 22:03" }

/-- Witness for C4: the concrete boundary message survives the concrete
IMAP pipeline, and its timestamp is at the since instant. -/
theorem since_lower_bound_enforced_witness :
    boundaryEmail ∈ (fetchEmailsIMAPResult sinceQuery fixtureMomentParse [1]
      (fun _ => some boundaryEmail)).emails
    ∧ (1749420180000 : Int) ≤ boundaryEmail.date :=
  ⟨by decide,
   (since_lower_bound_enforced sinceQuery fixtureMomentParse 0 1749420180000
      [1] (fun _ => some boundaryEmail) [] (fun _ => .error "unused")
      "2025/06/08 22:03" rfl (by decide)).1 boundaryEmail (by decide)⟩

/-! ## C5: the fetch limit -/

/-- C5: a fetch request with an explicit positive `limit = L` returns at
most `L` messages under either protocol variant, whatever the server-side
search returned (`searchUids`) or the mailbox contained (`emailList`): the
IMAP path slices the matched identifiers to the limit before fetching, the
POP3 path takes the last `L` listed message numbers, and the client-side
filters only shrink the result. -/
theorem fetch_limit_respected (q : EmailQueryParams) (L : Nat)
    (momentParse : String → ParsedMoment) (todayStart : Int)
    (searchUids : List Nat) (retrieveIMAP : Nat → Option EmailMessage)
    (emailList : List (Nat × Nat))
    (retrievePOP3 : Nat → Except String EmailMessage)
    (hq : q.limit = some L) (hL : 0 < L) :
    (fetchEmailsIMAPResult q momentParse searchUids retrieveIMAP).emails.length ≤ L
    ∧ (fetchEmailsPOP3Result q momentParse todayStart emailList
        retrievePOP3).emails.length ≤ L := by
  have hEff : effLimit q.limit = L := by
    have hne : L ≠ 0 := by omega
    simp [effLimit, hq, hne]
  constructor
  · simp only [fetchEmailsIMAPResult]
    split
    · simp
    · have hbase : (fetchEmailDetails retrieveIMAP
          ((searchUids.reverse).take (effLimit q.limit))).length ≤ L := by
        simp only [fetchEmailDetails, length_sortByDateDesc]
        calc (((searchUids.reverse).take (effLimit q.limit)).filterMap retrieveIMAP).length
            ≤ ((searchUids.reverse).take (effLimit q.limit)).length :=
              List.length_filterMap_le _ _
          _ ≤ effLimit q.limit := List.length_take_le _ _
          _ = L := hEff
      rcases hsq : q.since with _ | s
      · simpa [hsq] using hbase
      · simp only [hsq]
        exact le_trans (List.length_filter_le _ _) hbase
  · simp only [fetchEmailsPOP3Result]
    split
    · simp
    · have hbase : (fetchPOP3EmailDetails retrievePOP3
          ((emailList.drop (emailList.length - effLimit q.limit)).reverse)).length ≤ L := by
        simp only [fetchPOP3EmailDetails, length_sortByDateDesc]
        calc (((emailList.drop (emailList.length - effLimit q.limit)).reverse).filterMap
              (fun info => (retrievePOP3 info.1).toOption)).length
            ≤ ((emailList.drop (emailList.length - effLimit q.limit)).reverse).length :=
              List.length_filterMap_le _ _
          _ ≤ L := by
              rw [List.length_reverse, List.length_drop, hEff]
              omega
      simp only []
      exact le_trans (pop3ToStage_length_le _ _)
        (le_trans (pop3FromStage_length_le _ _)
          (le_trans (pop3SinceStage_length_le _ _ _ _) hbase))

/-- Test fixture: a fetch request with limit 5. -/
def limitFiveQuery : EmailQueryParams :=
  { email_address := "user@example.com"
    mail_box := some "INBOX"
    limit := some 5
    fromFilter := none
    toFilter := none
    since := none }

/-- Witness for C5: with limit 5 and seven matching messages, the IMAP
pipeline returns at most 5. -/
theorem fetch_limit_respected_witness :
    (fetchEmailsIMAPResult limitFiveQuery fixtureMomentParse [1, 2, 3, 4, 5, 6, 7]
      (fun _ => some boundaryEmail)).emails.length ≤ 5 :=
  (fetch_limit_respected limitFiveQuery 5 fixtureMomentParse 0
    [1, 2, 3, 4, 5, 6, 7] (fun _ => some boundaryEmail) []
    (fun _ => .error "unused") rfl (by decide)).1

/-- Counting lemma behind C8: if exactly one element of a duplicate-free
list maps to `none` and every other element maps to `some`, the number of
`some`-results is the length minus one. -/
theorem countP_isSome_of_one_error {α β : Type} [DecidableEq α]
    (f : α → Option β) (l : List α) (bad : α)
    (hmem : bad ∈ l) (hnodup : l.Nodup) (hbadf : f bad = none)
    (hokf : ∀ i ∈ l, i ≠ bad → (f i).isSome = true) :
    l.countP (fun a => (f a).isSome) = l.length - 1 := by
  induction l with
  | nil => cases hmem
  | cons x t ih =>
    rcases List.mem_cons.mp hmem with rfl | hmem2
    · have hx : (f bad).isSome = false := by simp [hbadf]
      have ht : t.countP (fun a => (f a).isSome) = t.length := by
        rw [List.countP_eq_length]
        intro a ha
        have hne : a ≠ bad := fun h => (List.nodup_cons.mp hnodup).1 (h ▸ ha)
        exact hokf a (List.mem_cons_of_mem _ ha) hne
      simp [List.countP_cons, hx, ht]
    · have hxne : x ≠ bad := by
        intro h
        exact (List.nodup_cons.mp hnodup).1 (h ▸ hmem2)
      have hx : (f x).isSome = true := hokf x (List.mem_cons_self _ _) hxne
      have ih2 := ih hmem2 (List.nodup_cons.mp hnodup).2
        (fun i hi hne => hokf i (List.mem_cons_of_mem _ hi) hne)
      have hlen : 1 ≤ t.length := List.length_pos.mpr (List.ne_nil_of_mem hmem2)
      simp only [List.countP_cons, hx, if_true, List.length_cons, ih2]
      omega

/-! ## C8: one POP3 retrieval failure does not abort the batch -/

/-- C8: in the sequential POP3 per-message retrieval loop, if retrieval or
parsing of exactly one of the N listed messages fails, that message is
skipped and the loop still returns the other N − 1 successfully parsed
messages: the result has length N − 1 and contains every successfully
retrieved message. -/
theorem pop3_single_failure_skipped
    (retrieve : Nat → Except String EmailMessage)
    (emailList : List (Nat × Nat)) (bad : Nat × Nat) (err : String)
    (hmem : bad ∈ emailList) (hnodup : emailList.Nodup)
    (hbad : retrieve bad.1 = .error err)
    (hok : ∀ i ∈ emailList, i ≠ bad → ∃ e, retrieve i.1 = .ok e) :
    (fetchPOP3EmailDetails retrieve emailList).length = emailList.length - 1
    ∧ (∀ i ∈ emailList, i ≠ bad → ∀ e, retrieve i.1 = .ok e →
        e ∈ fetchPOP3EmailDetails retrieve emailList) := by
  constructor
  · rw [show fetchPOP3EmailDetails retrieve emailList
        = sortByDateDesc (emailList.filterMap (fun info => (retrieve info.1).toOption))
        from rfl,
      length_sortByDateDesc, length_filterMap_eq_countP]
    exact countP_isSome_of_one_error _ emailList bad hmem hnodup
      (by simp [hbad, Except.toOption])
      (fun i hi hne => by
        rcases hok i hi hne with ⟨e, he⟩
        simp [he, Except.toOption])
  · intro i hi hne e he
    simp only [fetchPOP3EmailDetails, mem_sortByDateDesc]
    exact List.mem_filterMap.mpr ⟨i, hi, by simp [he, Except.toOption]⟩

/-- Test fixture: the message produced for POP3 message number `n`. -/
def pop3FixtureEmail (n : Nat) : EmailMessage :=
  { id := "pop3-" ++ Nat.repr n
    messageId := "pop3-" ++ Nat.repr n
    «from» := "someone@example.com"
    «to» := "me@example.com"
    subject := ""
    title := ""
    body := ""
    content := ""
    date := (n : Int)
    hasAttachments := false
    attachments := []
    createdAt := 0 }

/-- Test fixture: message number 2 fails to retrieve, the others parse. -/
def pop3FixtureRetrieve : Nat → Except String EmailMessage :=
  fun n => if n = 2 then .error "解析失败" else .ok (pop3FixtureEmail n)

/-- Witness for C8: of three listed messages with one failure, two are
returned. -/
theorem pop3_single_failure_skipped_witness :
    (fetchPOP3EmailDetails pop3FixtureRetrieve [(1, 10), (2, 20), (3, 30)]).length
      = [(1, 10), (2, 20), (3, 30)].length - 1 :=
  (pop3_single_failure_skipped pop3FixtureRetrieve [(1, 10), (2, 20), (3, 30)]
    (2, 20) "解析失败" (by decide) (by decide) rfl
    (by
      intro i hi hne
      simp only [List.mem_cons, List.not_mem_nil, or_false] at hi
      rcases hi with h1 | h2 | h3
      · exact ⟨pop3FixtureEmail 1, by rw [h1]; rfl⟩
      · exact absurd h2 hne
      · exact ⟨pop3FixtureEmail 3, by rw [h3]; rfl⟩)).1

/-! ## C9: oversized attachments are dropped by the normalizer -/

/-- C9: every message produced by the normalizer omits attachments whose
declared size exceeds the configured 10 MB limit, and its `hasAttachments`
flag holds exactly when the post-filter attachment list is non-empty.  In
particular a message whose attachments all exceed the limit comes out with
`hasAttachments = false`, an empty attachment list, and an attachment
partial score of 0. -/
theorem oversized_attachments_dropped (parsed : ParsedMail) (seqno : Nat)
    (newId : String) (now : Int) :
    (∀ a ∈ (parseEmailMessage parsed seqno newId now).attachments,
        a.size ≤ attachmentSizeLimit)
    ∧ ((parseEmailMessage parsed seqno newId now).hasAttachments = true
        ↔ (parseEmailMessage parsed seqno newId now).attachments ≠ [])
    ∧ ((∀ a ∈ parsed.attachments, attachmentSizeLimit < a.size) →
        (parseEmailMessage parsed seqno newId now).attachments = []
        ∧ (parseEmailMessage parsed seqno newId now).hasAttachments = false
        ∧ analyzeAttachments (parseEmailMessage parsed seqno newId now) = 0) := by
  refine ⟨?_, ?_, ?_⟩
  · intro a ha
    simp only [parseEmailMessage] at ha
    rcases List.mem_filterMap.mp ha with ⟨pa, _, hfa⟩
    by_cases hsize : pa.size ≤ attachmentSizeLimit
    · rw [if_pos hsize] at hfa
      cases hfa
      exact hsize
    · rw [if_neg hsize] at hfa
      cases hfa
  · simp only [parseEmailMessage]
    constructor
    · intro hdec
      have := of_decide_eq_true hdec
      intro hnil
      rw [hnil] at this
      simp at this
    · intro hne
      apply decide_eq_true
      have := List.length_pos.mpr hne
      simpa using this
  · intro hall
    have hnil : (parseEmailMessage parsed seqno newId now).attachments = [] := by
      simp only [parseEmailMessage]
      rw [List.filterMap_eq_nil_iff]
      intro a ha
      rw [if_neg (not_le.mpr (hall a ha))]
    have hflag : (parseEmailMessage parsed seqno newId now).hasAttachments = false := by
      simp only [parseEmailMessage] at hnil ⊢
      rw [hnil]
      rfl
    refine ⟨hnil, hflag, ?_⟩
    simp [analyzeAttachments, hflag]

/-- Test fixture: a parsed mail whose only attachment declares 11 MB. -/
def oversizedParsedMail : ParsedMail :=
  { attachments := [{ filename := some "big-invoice.pdf"
                      contentType := "application/pdf"
                      size := 11 * 1024 * 1024 }]
    subject := some "发票"
    text := some "正文"
    html := none
    «from» := .obj { address := some "billing@shop.example", text := none }
    «to» := .obj { address := some "me@example.com", text := none }
    date := some 1749420180000
    messageId := some "<id@example>" }

/-- Witness for C9: the 11 MB attachment is dropped entirely and the
attachment partial score is 0. -/
theorem oversized_attachments_dropped_witness :
    (parseEmailMessage oversizedParsedMail 1 "some-uuid" 0).attachments = []
    ∧ (parseEmailMessage oversizedParsedMail 1 "some-uuid" 0).hasAttachments = false
    ∧ analyzeAttachments (parseEmailMessage oversizedParsedMail 1 "some-uuid" 0) = 0 :=
  (oversized_attachments_dropped oversizedParsedMail 1 "some-uuid" 0).2.2
    (by decide)

/-! ## Injectivity of the decimal rendering (C7 infrastructure).

The cache keys embed numbers with `Nat.repr` (JavaScript template-string
interpolation of a number).  Distinctness of keys under a change of limit
or port needs `Nat.repr` to be injective, which we prove by exhibiting the
decimal value of a digit string as a left inverse. -/

/-- Decimal value of a digit string, most significant digit first. -/
def digitsVal : List Char → Nat
  | [] => 0
  | c :: t => (c.toNat - 48) * 10 ^ t.length + digitsVal t

theorem digitChar_val : ∀ d : Nat, d < 10 → (Nat.digitChar d).toNat - 48 = d := by
  decide

theorem toDigitsCore_val :
    ∀ (f n : Nat) (ds : List Char), n < f →
      digitsVal (Nat.toDigitsCore 10 f n ds) = n * 10 ^ ds.length + digitsVal ds := by
  intro f
  induction f with
  | zero => intro n ds h; omega
  | succ f ih =>
    intro n ds h
    simp only [Nat.toDigitsCore]
    by_cases hz : n / 10 = 0
    · rw [if_pos hz]
      have hn : n < 10 := by omega
      have hmod : n % 10 = n := Nat.mod_eq_of_lt hn
      simp only [digitsVal, hmod, digitChar_val n hn]
    · rw [if_neg hz]
      have hdiv : n / 10 < f := by omega
      rw [ih (n / 10) ((n % 10).digitChar :: ds) hdiv]
      simp only [digitsVal, List.length_cons,
        digitChar_val (n % 10) (Nat.mod_lt n (by omega))]
      have hqr : 10 * (n / 10) + n % 10 = n := Nat.div_add_mod n 10
      calc n / 10 * 10 ^ (ds.length + 1) + (n % 10 * 10 ^ ds.length + digitsVal ds)
          = (10 * (n / 10) + n % 10) * 10 ^ ds.length + digitsVal ds := by ring
        _ = n * 10 ^ ds.length + digitsVal ds := by rw [hqr]

theorem digitsVal_toDigits (n : Nat) : digitsVal (Nat.toDigits 10 n) = n := by
  have h := toDigitsCore_val (n + 1) n [] (Nat.lt_succ_self n)
  simpa [Nat.toDigits, digitsVal] using h

theorem natRepr_injective : Function.Injective Nat.repr := by
  intro m n h
  have hdata : Nat.toDigits 10 m = Nat.toDigits 10 n := by
    have hd := congrArg String.data h
    simpa [Nat.repr, List.asString] using hd
  have hv := congrArg digitsVal hdata
  rwa [digitsVal_toDigits, digitsVal_toDigits] at hv

/-! ## String cancellation (C7 infrastructure) -/

theorem str_append_cancel_left {a b c : String} (h : a ++ b = a ++ c) : b = c := by
  apply String.ext
  have hd := congrArg String.data h
  simp only [String.data_append] at hd
  exact List.append_cancel_left hd

theorem str_append_cancel_right {a b c : String} (h : a ++ c = b ++ c) : a = b := by
  apply String.ext
  have hd := congrArg String.data h
  simp only [String.data_append] at hd
  exact List.append_cancel_right hd

theorem jsTruthy_eq_false_of_jsNorm_none {o : Option String}
    (h : jsNorm o = none) : jsTruthy o = false := by
  rcases o with _ | s
  · rfl
  · by_cases hs : s.isEmpty
    · simp [jsTruthy, hs]
    · simp [jsNorm, hs] at h

theorem of_jsNorm_some {o : Option String} {v : String}
    (h : jsNorm o = some v) : o = some v ∧ v.isEmpty = false := by
  rcases o with _ | s
  · simp [jsNorm] at h
  · by_cases hs : s.isEmpty
    · simp [jsNorm, hs] at h
    · simp only [jsNorm, hs, Bool.false_eq_true, if_false, Option.some.injEq] at h
      subst h
      exact ⟨rfl, by simpa using hs⟩

/-! ## C7: cache key derivation -/

/-- Test fixture: a fetch request with a recipient filter. -/
def recipientQuery : EmailQueryParams :=
  { email_address := "user@example.com"
    mail_box := some "INBOX"
    limit := some 10
    fromFilter := none
    toFilter := some "boss@corp.com"
    since := none }

/-- Test fixture: the same request with a different recipient filter. -/
def recipientQueryAlt : EmailQueryParams :=
  { recipientQuery with toFilter := some "assistant@corp.com" }

/-- Test fixture: a mailbox message addressed to the first recipient. -/
def recipientEmail : EmailMessage :=
  { id := "c7-email"
    messageId := "c7"
    «from» := "someone@example.com"
    «to» := "boss@corp.com"
    subject := ""
    title := ""
    body := ""
    content := ""
    date := 5
    hasAttachments := false
    attachments := []
    createdAt := 0 }

/-- Test fixture: POP3 retrieval that always yields the message above. -/
def recipientRetrieve : Nat → Except String EmailMessage :=
  fun _ => .ok recipientEmail

/-- C7 counterexample: two fetch requests that differ only in a
result-affecting parameter — the recipient filter, which the POP3 path
applies to the returned set — receive the same cache key, because
`fetchEmails` builds the key without the `to` filter. -/
theorem fetch_key_ignores_recipient_counterexample :
    fetchEmailsCacheKey recipientQuery = fetchEmailsCacheKey recipientQueryAlt
    ∧ recipientQuery.toFilter ≠ recipientQueryAlt.toFilter
    ∧ fetchEmailsPOP3Result recipientQuery fixtureMomentParse 0 [(1, 100)]
        recipientRetrieve
      ≠ fetchEmailsPOP3Result recipientQueryAlt fixtureMomentParse 0 [(1, 100)]
        recipientRetrieve := by
  decide

/-- C7 amended: cache keys are deterministically derived from the operation
name plus parameters, but the fetch key covers only address, folder, limit,
sender filter and time lower bound — the recipient filter is omitted, so
two fetch requests differing only in it share a key (first conjunct).  For
the covered parameters the derivation is faithful: changing any single one
of them (with the others fixed) changes the fetch key — for the optional
filters up to JavaScript falsiness, where an absent and an empty filter are
interchangeable — and likewise the connection-test key distinguishes
address, server and port. -/
theorem cache_keys_parameter_sensitivity :
    (∀ (q : EmailQueryParams) (t : Option String),
        fetchEmailsCacheKey { q with toFilter := t } = fetchEmailsCacheKey q)
    ∧ (∀ (e1 e2 mb : String) (lim : Nat) (f s : Option String),
        getEmailFetchKey e1 mb lim f s = getEmailFetchKey e2 mb lim f s → e1 = e2)
    ∧ (∀ (e mb1 mb2 : String) (lim : Nat) (f s : Option String),
        getEmailFetchKey e mb1 lim f s = getEmailFetchKey e mb2 lim f s → mb1 = mb2)
    ∧ (∀ (e mb : String) (l1 l2 : Nat) (f s : Option String),
        getEmailFetchKey e mb l1 f s = getEmailFetchKey e mb l2 f s → l1 = l2)
    ∧ (∀ (e mb : String) (lim : Nat) (f1 f2 s : Option String),
        getEmailFetchKey e mb lim f1 s = getEmailFetchKey e mb lim f2 s →
        jsNorm f1 = jsNorm f2)
    ∧ (∀ (e mb : String) (lim : Nat) (f s1 s2 : Option String),
        getEmailFetchKey e mb lim f s1 = getEmailFetchKey e mb lim f s2 →
        jsNorm s1 = jsNorm s2)
    ∧ (∀ (a1 a2 srv : String) (p : Nat),
        getConnectionTestKey a1 srv p = getConnectionTestKey a2 srv p → a1 = a2)
    ∧ (∀ (a srv1 srv2 : String) (p : Nat),
        getConnectionTestKey a srv1 p = getConnectionTestKey a srv2 p → srv1 = srv2)
    ∧ (∀ (a srv : String) (p1 p2 : Nat),
        getConnectionTestKey a srv p1 = getConnectionTestKey a srv p2 → p1 = p2) := by
  refine ⟨fun q t => rfl, ?_, ?_, ?_, ?_, ?_, ?_, ?_, ?_⟩
  · intro e1 e2 mb lim f s h
    cases htf : jsTruthy f <;> cases hts : jsTruthy s <;>
      simp only [getEmailFetchKey, htf, hts, Bool.false_eq_true, if_false, if_true,
        List.cons_append, List.nil_append,
        String.intercalate, String.intercalate.go] at h <;>
      repeat1 (first
        | (exact h)
        | (replace h := str_append_cancel_right h)
        | (replace h := str_append_cancel_left h))
  · intro e mb1 mb2 lim f s h
    cases htf : jsTruthy f <;> cases hts : jsTruthy s <;>
      simp only [getEmailFetchKey, htf, hts, Bool.false_eq_true, if_false, if_true,
        List.cons_append, List.nil_append,
        String.intercalate, String.intercalate.go] at h <;>
      repeat1 (first
        | (exact h)
        | (replace h := str_append_cancel_right h)
        | (replace h := str_append_cancel_left h))
  · intro e mb l1 l2 f s h
    cases htf : jsTruthy f <;> cases hts : jsTruthy s <;>
      simp only [getEmailFetchKey, htf, hts, Bool.false_eq_true, if_false, if_true,
        List.cons_append, List.nil_append,
        String.intercalate, String.intercalate.go] at h <;>
      repeat1 (first
        | (exact natRepr_injective h)
        | (replace h := str_append_cancel_right h)
        | (replace h := str_append_cancel_left h))
  · intro e mb lim f1 f2 s h
    rcases hf1 : jsNorm f1 with _ | v1 <;> rcases hf2 : jsNorm f2 with _ | v2
    · rfl
    · exfalso
      have htf1 := jsTruthy_eq_false_of_jsNorm_none hf1
      obtain ⟨ho2, hv2⟩ := of_jsNorm_some hf2
      subst ho2
      have htf2 : jsTruthy (some v2) = true := by simp [jsTruthy, hv2]
      cases hts : jsTruthy s <;>
        simp only [getEmailFetchKey, htf1, htf2, hts, Bool.false_eq_true, if_false,
          if_true, List.cons_append, List.nil_append, Option.getD_some,
          String.intercalate, String.intercalate.go] at h <;>
        · have hlen := congrArg String.length h
          simp only [String.length_append] at hlen
          have c1 : (":" : String).length = 1 := rfl
          have c2 : ("from:" : String).length = 5 := rfl
          omega
    · exfalso
      have htf2 := jsTruthy_eq_false_of_jsNorm_none hf2
      obtain ⟨ho1, hv1⟩ := of_jsNorm_some hf1
      subst ho1
      have htf1 : jsTruthy (some v1) = true := by simp [jsTruthy, hv1]
      cases hts : jsTruthy s <;>
        simp only [getEmailFetchKey, htf1, htf2, hts, Bool.false_eq_true, if_false,
          if_true, List.cons_append, List.nil_append, Option.getD_some,
          String.intercalate, String.intercalate.go] at h <;>
        · have hlen := congrArg String.length h
          simp only [String.length_append] at hlen
          have c1 : (":" : String).length = 1 := rfl
          have c2 : ("from:" : String).length = 5 := rfl
          omega
    · obtain ⟨ho1, hv1⟩ := of_jsNorm_some hf1
      obtain ⟨ho2, hv2⟩ := of_jsNorm_some hf2
      subst ho1
      subst ho2
      have ht1 : jsTruthy (some v1) = true := by simp [jsTruthy, hv1]
      have ht2 : jsTruthy (some v2) = true := by simp [jsTruthy, hv2]
      have hval : v1 = v2 := by
        cases hts : jsTruthy s <;>
          simp only [getEmailFetchKey, ht1, ht2, hts, Bool.false_eq_true, if_false,
            if_true, List.cons_append, List.nil_append, Option.getD_some,
            String.intercalate, String.intercalate.go] at h <;>
          repeat1 (first
            | (exact h)
            | (replace h := str_append_cancel_right h)
            | (replace h := str_append_cancel_left h))
      rw [hval]
  · intro e mb lim f s1 s2 h
    rcases hs1 : jsNorm s1 with _ | v1 <;> rcases hs2 : jsNorm s2 with _ | v2
    · rfl
    · exfalso
      have hts1 := jsTruthy_eq_false_of_jsNorm_none hs1
      obtain ⟨ho2, hv2⟩ := of_jsNorm_some hs2
      subst ho2
      have hts2 : jsTruthy (some v2) = true := by simp [jsTruthy, hv2]
      cases htf : jsTruthy f <;>
        simp only [getEmailFetchKey, hts1, hts2, htf, Bool.false_eq_true, if_false,
          if_true, List.cons_append, List.nil_append, Option.getD_some,
          String.intercalate, String.intercalate.go] at h <;>
        · have hlen := congrArg String.length h
          simp only [String.length_append] at hlen
          have c1 : (":" : String).length = 1 := rfl
          have c2 : ("since:" : String).length = 6 := rfl
          omega
    · exfalso
      have hts2 := jsTruthy_eq_false_of_jsNorm_none hs2
      obtain ⟨ho1, hv1⟩ := of_jsNorm_some hs1
      subst ho1
      have hts1 : jsTruthy (some v1) = true := by simp [jsTruthy, hv1]
      cases htf : jsTruthy f <;>
        simp only [getEmailFetchKey, hts1, hts2, htf, Bool.false_eq_true, if_false,
          if_true, List.cons_append, List.nil_append, Option.getD_some,
          String.intercalate, String.intercalate.go] at h <;>
        · have hlen := congrArg String.length h
          simp only [String.length_append] at hlen
          have c1 : (":" : String).length = 1 := rfl
          have c2 : ("since:" : String).length = 6 := rfl
          omega
    · obtain ⟨ho1, hv1⟩ := of_jsNorm_some hs1
      obtain ⟨ho2, hv2⟩ := of_jsNorm_some hs2
      subst ho1
      subst ho2
      have ht1 : jsTruthy (some v1) = true := by simp [jsTruthy, hv1]
      have ht2 : jsTruthy (some v2) = true := by simp [jsTruthy, hv2]
      have hval : v1 = v2 := by
        cases htf : jsTruthy f <;>
          simp only [getEmailFetchKey, ht1, ht2, htf, Bool.false_eq_true, if_false,
            if_true, List.cons_append, List.nil_append, Option.getD_some,
            String.intercalate, String.intercalate.go] at h <;>
          repeat1 (first
            | (exact h)
            | (replace h := str_append_cancel_right h)
            | (replace h := str_append_cancel_left h))
      rw [hval]
  · intro a1 a2 srv p h
    simp only [getConnectionTestKey] at h
    repeat1 (first
      | (exact h)
      | (replace h := str_append_cancel_right h)
      | (replace h := str_append_cancel_left h))
  · intro a srv1 srv2 p h
    simp only [getConnectionTestKey] at h
    repeat1 (first
      | (exact h)
      | (replace h := str_append_cancel_right h)
      | (replace h := str_append_cancel_left h))
  · intro a srv p1 p2 h
    simp only [getConnectionTestKey] at h
    repeat1 (first
      | (exact natRepr_injective h)
      | (replace h := str_append_cancel_right h)
      | (replace h := str_append_cancel_left h))

/-- Witness for the amended C7 theorem: the invariance conjunct at a
concrete request, and the limit-sensitivity conjunct applied at concrete
equal keys. -/
theorem cache_keys_parameter_sensitivity_witness :
    fetchEmailsCacheKey { recipientQuery with toFilter := none }
      = fetchEmailsCacheKey recipientQuery
    ∧ (5 : Nat) = 5 :=
  ⟨cache_keys_parameter_sensitivity.1 recipientQuery none,
   cache_keys_parameter_sensitivity.2.2.2.1 "user@example.com" "INBOX" 5 5
     none none (by decide)⟩

end EmailReceiver
